import Mathlib

/-!
Verification of the Mule workflow engine (Torgon-io/mule).

The engine is shallow-embedded from the TypeScript sources:
the Workflow class of src/unnamed/part_009 (the engine revision the
spec was written from: it carries the execution context, the setState
closure and the run-time state reset; src/main.ts is an earlier revision
of the same class and agrees with it on every operation modelled here
except the state reset and setState, which only part_009 has), and the
environment helpers of src/lib.ts (getStepRetries, getMaxParallelSteps,
runWithConcurrencyLimit).

Modelling conventions:
* JavaScript values are the inductive Value (undefined, null, string,
  number, object-as-association-list).
* The mutable state bag is modelled with explicit object identity: a
  heap (list of StateMap, position = address) plus the current address
  cur standing for the this.state reference.  In-place field writes
  mutate the heap cell; the engine setState closure allocates a fresh
  cell, exactly like the source line
  this.state = (spread of this.state, then newState).
* Executors are deep-embedded (a list of effect commands followed by a
  result expression) so every run is computable; errors are strings
  (the message of the thrown Error).
* Asynchrony: async bodies run synchronously up to their first await and
  resume in a later microtask, so in a Promise.all batch every member is
  invoked before any result is processed.  The trace of invoke/resolve
  events reflects that two-phase shape; within a batch members are
  threaded in list order (the spec declares intra-batch state races
  unspecified).
* Deno.env is an explicit Env value.  The engine functions do not read
  it: that is faithful to the source, where no Workflow method calls
  getStepRetries or getMaxParallelSteps.
-/

namespace Mule

/-- JavaScript-like runtime values. -/
inductive Value where
  | undef : Value
  | vnull : Value
  | str : String → Value
  | num : Int → Value
  | obj : List (String × Value) → Value
deriving Repr

/-- A plain-object state bag, as an association list of fields. -/
abbrev StateMap := List (String × Value)

/-- Property read: m[k], undefined when the key is absent. -/
def mapGet (m : StateMap) (k : String) : Value :=
  match m.find? (fun p => p.1 = k) with
  | some p => p.2
  | none => Value.undef

/-- Property write: m[k] = v, updating in place or appending. -/
def mapSet (m : StateMap) (k : String) (v : Value) : StateMap :=
  if m.any (fun p => p.1 = k) then
    m.map (fun p => if p.1 = k then (k, v) else p)
  else
    m ++ [(k, v)]

/-- Spread merge of two objects: keys of b override keys of a. -/
def shallowMerge (a b : StateMap) : StateMap :=
  b.foldl (fun acc p => mapSet acc p.1 p.2) a

/-- The two environment variables the tunables of src/lib.ts read.
none models an unset variable. -/
structure Env where
  muleStepRetries : Option String
  muleStepConcurrency : Option String
deriving Repr, DecidableEq

/-- Decimal value of a digit character list. -/
def digitsVal (cs : List Char) : Nat :=
  cs.foldl (fun acc c => acc * 10 + (c.toNat - '0'.toNat)) 0

/-- Leading run of decimal digits. -/
def leadDigits (cs : List Char) : List Char :=
  cs.takeWhile (fun c => c.isDigit)

/-- Value of the longest digit run at the head, none when it is empty
(that is the NaN case of parseInt). -/
def digitsHead (cs : List Char) : Option Nat :=
  match leadDigits cs with
  | [] => none
  | ds => some (digitsVal ds)

/-- JavaScript parseInt(raw, 10): skip leading whitespace, optional
sign, longest digit run; NaN (none) when no digit follows.  Trailing
garbage is ignored, as in JavaScript. -/
def jsParseInt (s : String) : Option Int :=
  match (s.toList.dropWhile (fun c => c.isWhitespace)) with
  | '-' :: rest => (digitsHead rest).map (fun n => -(n : Int))
  | '+' :: rest => (digitsHead rest).map (fun n => (n : Int))
  | cs => (digitsHead cs).map (fun n => (n : Int))

/-- src/lib.ts: const DEFAULT_STEP_RETRIES = 1. -/
def DEFAULT_STEP_RETRIES : Nat := 1

/-- src/lib.ts getStepRetries(): unset or empty MULE_STEP_RETRIES gives
the default, NaN or negative gives the default, otherwise the parsed
value. -/
def getStepRetries (env : Env) : Nat :=
  match env.muleStepRetries with
  | none => DEFAULT_STEP_RETRIES
  | some raw =>
    if raw = "" then DEFAULT_STEP_RETRIES
    else
      match jsParseInt raw with
      | none => DEFAULT_STEP_RETRIES
      | some n => if n < 0 then DEFAULT_STEP_RETRIES else n.toNat

/-- src/lib.ts getMaxParallelSteps(): unset, empty, NaN or below one
gives none (no limit), otherwise the parsed cap. -/
def getMaxParallelSteps (env : Env) : Option Nat :=
  match env.muleStepConcurrency with
  | none => none
  | some raw =>
    if raw = "" then none
    else
      match jsParseInt raw with
      | none => none
      | some n => if n < 1 then none else some n.toNat

/-- Deep-embedded branch predicates ((output) mapped to boolean),
covering the shapes the test-suite uses. -/
inductive Pred where
  | always : Bool → Pred
  | numGt : Int → Pred
  | numLt : Int → Pred
deriving Repr, DecidableEq

/-- Evaluate a predicate against the current lastOutput. -/
def Pred.eval : Pred → Value → Bool
  | .always b, _ => b
  | .numGt n, .num m => n < m
  | .numGt _, _ => false
  | .numLt n, .num m => m < n
  | .numLt _, _ => false

/-- Effect commands an executor body may perform before returning:
setPatch models a setState(partial-object) call, assign models an
in-place property write on the state object the executor captured. -/
inductive ECmd where
  | setPatch : StateMap → ECmd
  | assign : String → Value → ECmd
deriving Repr

/-- Result expression of an executor: a constant, the input echoed, a
read of a field of the captured state object (at return time), or a
thrown Error with the given message. -/
inductive RExpr where
  | const : Value → RExpr
  | input : RExpr
  | stateGet : String → RExpr
  | throwErr : String → RExpr
deriving Repr

/-- Evaluate a result expression given the input and the content of the
captured state object. -/
def RExpr.eval : RExpr → Value → StateMap → Except String Value
  | .const v, _, _ => .ok v
  | .input, inp, _ => .ok inp
  | .stateGet k, _, st => .ok (mapGet st k)
  | .throwErr m, _, _ => .error m

/-- An executor: its effect commands followed by its result. -/
structure Executor where
  cmds : List ECmd
  ret : RExpr
deriving Repr

/-- A validator in the sense of the Validator contract of the spec:
parse(data) returns the value or raises.  anyV accepts and returns its
argument (z.any-like), rejectAll always raises. -/
inductive Validator where
  | anyV : Validator
  | rejectAll : String → Validator
deriving Repr, DecidableEq

/-- parse(data) of the Validator contract. -/
def Validator.parse : Validator → Value → Except String Value
  | .anyV, v => .ok v
  | .rejectAll m, _ => .error m

/-- A Step as created by createStep: id, the two validators, the
executor and the optional error handler (onError true = handler
present; the handler's observable behaviour is the engine's
handler-call event). -/
structure StepDef where
  id : String
  inputSchema : Validator
  outputSchema : Validator
  executor : Executor
  onError : Bool
deriving Repr

mutual
/-- An operand of runStepExecution: a plain Step or a nested
Workflow (the step instanceof Workflow distinction of the source). -/
inductive Operand where
  | step : StepDef → Operand
  | wf : WorkflowDef → Operand

/-- One entry of the operation list: a sequential step (addStep), a
parallel batch (parallel) or a branch batch (branch, whose members are
plain Steps paired with predicates, as in the source's type). -/
inductive OpDef where
  | seqStep : Operand → OpDef
  | parallelOp : List Operand → OpDef
  | branchOp : List (StepDef × Pred) → OpDef

/-- A Workflow: its workflowId, the state it was constructed with
(createWorkflow's state parameter) and its appended operation list. -/
inductive WorkflowDef where
  | mk : String → StateMap → List OpDef → WorkflowDef
end

/-- The workflowId field. -/
def WorkflowDef.workflowId : WorkflowDef → String
  | .mk wid _ _ => wid

/-- The construction-time state (declared default). -/
def WorkflowDef.declaredState : WorkflowDef → StateMap
  | .mk _ st _ => st

/-- The operation list. -/
def WorkflowDef.ops : WorkflowDef → List OpDef
  | .mk _ _ ops => ops

/-- Observable events of a run: an executor invocation (with the
AIService config data the engine passes: runId, stepId, projectId,
logger) starting, an invocation resolving, and an onError handler call
(original message, input, state content at the time of the call). -/
inductive Event where
  | invokeExec : String → String → String → Option String → Value → Nat → Event
  | resolveExec : String → String → Event
  | handlerCall : String → String → Value → StateMap → Event
deriving Repr

/-- Run-time state of a Workflow instance: the heap of state objects
(address = list position), the address this.state points at, the
lastOutput register, the instance fields runId / projectId / logger,
and the event trace. -/
structure RunState where
  heap : List StateMap
  cur : Nat
  lastOutput : Value
  runId : String
  projectId : String
  logger : Option String
  trace : List Event

/-- Content of the object this.state currently points at. -/
def RunState.curContent (rs : RunState) : StateMap :=
  rs.heap.getD rs.cur []

/-- The engine's setState closure,
this.state = object-spread of this.state then newState:
a fresh object holding the shallow merge is allocated and this.state is
repointed at it.  The previous object is left unchanged. -/
def setStateImpl (rs : RunState) (patch : StateMap) : RunState :=
  { rs with
    heap := rs.heap ++ [shallowMerge rs.curContent patch]
    cur := rs.heap.length }

/-- In-place property write on the heap object at address a. -/
def heapAssign (heap : List StateMap) (a : Nat) (k : String) (v : Value) :
    List StateMap :=
  heap.set a (mapSet (heap.getD a []) k v)

/-- Run the executor's effect commands.  a is the address of the state
object captured at invocation time; setState reads this.state (rs.cur)
at each call, in-place writes hit the captured object. -/
def runCmds (a : Nat) : List ECmd → RunState → RunState
  | [], rs => rs
  | .setPatch patch :: rest, rs => runCmds a rest (setStateImpl rs patch)
  | .assign k v :: rest, rs =>
      runCmds a rest { rs with heap := heapAssign rs.heap a k v }

/-- Whether a value is JavaScript undefined. -/
def Value.isUndef : Value → Bool
  | .undef => true
  | _ => false

/-- The try-body of runStepExecution for a plain Step (part_009 lines
286-309): capture this.state, emit the executor invocation (carrying
the AIService config fields), run the executor's effects, evaluate its
result against the captured object's final content.  Neither
inputSchema nor outputSchema is consulted, as in the source. -/
def stepExecBody (s : StepDef) (input : Value) (rs : RunState) :
    RunState × Except String Value :=
  let a := rs.cur
  let rs1 := { rs with
    trace := rs.trace ++
      [Event.invokeExec rs.runId s.id rs.projectId rs.logger input a] }
  let rs2 := runCmds a s.executor.cmds rs1
  (rs2, s.executor.ret.eval input (rs2.heap.getD a []))

/-- The key under which a parallel member's result is stored:
s instanceof Workflow then s.workflowId else s.id. -/
def operandKey : Operand → String
  | .step s => s.id
  | .wf w => w.workflowId

/-- The await resumption and catch clause of runStepExecution (part_009
lines 310-324): a nested workflow's failure is re-thrown
unconditionally; a plain step's failure is given to onError when
present (the handler receives the original message, the input and
this.state at that moment, and the step contributes undefined),
otherwise it becomes the step-failure error embedding runId:stepId. -/
def settleStep (o : Operand) (input : Value) (r : Except String Value)
    (rs : RunState) : RunState × Except String Value :=
  match o with
  | .wf w =>
    let rs1 := { rs with
      trace := rs.trace ++ [Event.resolveExec rs.runId w.workflowId] }
    (rs1, r)
  | .step s =>
    let rs1 := { rs with
      trace := rs.trace ++ [Event.resolveExec rs.runId s.id] }
    match r with
    | .ok v => (rs1, .ok v)
    | .error m =>
      if s.onError then
        ({ rs1 with
           trace := rs1.trace ++
             [Event.handlerCall s.id m input rs1.curContent] },
         .ok Value.undef)
      else
        (rs1, .error
          ("Step '" ++ rs1.runId ++ ":" ++ s.id ++ "' failed: " ++ m))

/-- Settle a batch: each member's resumption and catch clause runs in
its own microtask, in member order. -/
def settleList : List Operand → Value → List (Except String Value) →
    RunState → RunState × List (Except String Value)
  | [], _, _, rs => (rs, [])
  | _ :: _, _, [], rs => (rs, [])
  | o :: os, input, r :: rl, rs =>
    let (rs1, v) := settleStep o input r rs
    let (rs2, vs) := settleList os input rl rs1
    (rs2, v :: vs)

/-- Invocation phase of a branch batch (branch members are plain
Steps): all try-bodies run before any resumption. -/
def stepExecBodyList : List StepDef → Value → RunState →
    RunState × List (Except String Value)
  | [], _, rs => (rs, [])
  | s :: ss, input, rs =>
    let (rs1, r) := stepExecBody s input rs
    let (rs2, rl) := stepExecBodyList ss input rs1
    (rs2, r :: rl)

/-- First rejection of a batch, in settle order: the value
Promise.all rejects with. -/
def firstErr : List (Except String Value) → Option String
  | [] => none
  | .error e :: _ => some e
  | .ok _ :: rest => firstErr rest

/-- Fulfilled values of a batch (total: only applied when firstErr is
none). -/
def okValues (l : List (Except String Value)) : List Value :=
  l.map (fun r => match r with | .ok v => v | .error _ => Value.undef)

/-- The prologue of Workflow.run (part_009 lines 158-179): assign
this.runId, set this.lastOutput from the initial input (null when it is
undefined), and reset this.state to a freshly allocated object holding
the empty default merged with any caller-supplied initial state.  The
instance's previous state object is abandoned, not read. -/
def runStart (rs : RunState) (runId : String) (initialInput : Value)
    (initialState : Option StateMap) : RunState :=
  { rs with
    runId := runId
    lastOutput :=
      if initialInput.isUndef then Value.vnull else initialInput
    heap := rs.heap ++
      [match initialState with
       | none => []
       | some s => shallowMerge [] s]
    cur := rs.heap.length }

mutual
/-- Workflow.run (part_009 lines 149-186): set this.runId, set
this.lastOutput to the initial input when it is not undefined and to
null otherwise, reset this.state to a fresh object holding the empty
default merged with any caller-supplied initial state (the prologue
runStart), then await the operation list in append order; the final
lastOutput is the result.  The construction-time declared state is not
consulted. -/
def runWorkflow (w : WorkflowDef) (runId : String) (initialInput : Value)
    (initialState : Option StateMap) (rs : RunState) :
    RunState × Except String Value :=
  match w with
  | .mk _wid _decl ops =>
    match runOps ops (runStart rs runId initialInput initialState) with
    | (rs2, none) => (rs2, .ok rs2.lastOutput)
    | (rs2, some e) => (rs2, .error e)

/-- The for-loop of run: await each operation, stopping at the first
rejection. -/
def runOps : List OpDef → RunState → RunState × Option String
  | [], rs => (rs, none)
  | op :: rest, rs =>
    match runOp op rs with
    | (rs1, none) => runOps rest rs1
    | (rs1, some e) => (rs1, some e)

/-- One appended operation: a sequential step (addStep, part_009 lines
136-148), a parallel batch (lines 196-220) or a branch batch (lines
222-255). -/
def runOp : OpDef → RunState → RunState × Option String
  | .seqStep o, rs =>
    let input := rs.lastOutput
    let (rs1, r1) := execPhase o input rs
    let (rs2, r2) := settleStep o input r1 rs1
    (match r2 with
     | .ok v => ({ rs2 with lastOutput := v }, none)
     | .error e => (rs2, some e))
  | .parallelOp members, rs =>
    let input := rs.lastOutput
    let (rs1, raws) := execPhaseList members input rs
    let (rs2, outs) := settleList members input raws rs1
    (match firstErr outs with
     | some e => (rs2, some e)
     | none =>
       ({ rs2 with
          lastOutput :=
            Value.obj (List.zip (members.map operandKey) (okValues outs)) },
        none))
  | .branchOp cases, rs =>
    let stepsToRun := (cases.filter (fun c => c.2.eval rs.lastOutput)).map Prod.fst
    if stepsToRun.isEmpty then
      ({ rs with lastOutput := Value.obj [] }, none)
    else
      let input := rs.lastOutput
      let (rs1, raws) := stepExecBodyList stepsToRun input rs
      let (rs2, outs) :=
        settleList (stepsToRun.map Operand.step) input raws rs1
      (match firstErr outs with
       | some e => (rs2, some e)
       | none =>
         ({ rs2 with
            lastOutput :=
              Value.obj
                (List.zip (stepsToRun.map StepDef.id) (okValues outs)) },
          none))

/-- The try-body of runStepExecution (part_009 lines 267-309): for a
nested Workflow, alias the child's state field to the parent's state,
inherit projectId and logger, run the child under the composed runId
with the current input as initial input (and no initial state), and on
success repoint the parent's state at the child's final state object
(this.state = step.state); on failure the parent's state reference is
left untouched and the error is passed to the catch clause.  For a
plain Step, the executor runs as in stepExecBody. -/
def execPhase : Operand → Value → RunState → RunState × Except String Value
  | .step s, input, rs => stepExecBody s input rs
  | .wf child, input, rs =>
    (match runWorkflow child (rs.runId ++ "->" ++ child.workflowId)
        input none rs with
     | (rs1, .ok v) => ({ rs1 with runId := rs.runId }, .ok v)
     | (rs1, .error e) =>
       ({ rs1 with runId := rs.runId, cur := rs.cur }, .error e))

/-- Invocation phase of a parallel batch: Promise.all's map creates all
member promises in order, so every try-body runs before any
resumption. -/
def execPhaseList : List Operand → Value → RunState →
    RunState × List (Except String Value)
  | [], _, rs => (rs, [])
  | o :: os, input, rs =>
    let (rs1, r) := execPhase o input rs
    let (rs2, rl) := execPhaseList os input rs1
    (rs2, r :: rl)
end

/-- The run-time state of a freshly constructed Workflow instance: the
constructor stores the declared state as this.state, lastOutput null,
projectId unknown, no logger. -/
def newWorkflowState (w : WorkflowDef) : RunState :=
  { heap := [w.declaredState]
    cur := 0
    lastOutput := Value.vnull
    runId := ""
    projectId := "unknown"
    logger := none
    trace := [] }

/-- workflow.run(runId, initialInput) on a fresh instance. -/
def runTop (w : WorkflowDef) (runId : String) (initialInput : Value) :
    RunState × Except String Value :=
  runWorkflow w runId initialInput none (newWorkflowState w)

/-- The promise outcome of a top-level run. -/
def runResult (w : WorkflowDef) (runId : String) (initialInput : Value) :
    Except String Value :=
  (runTop w runId initialInput).2

/-- workflow.getState() after a top-level run: the content of the
object this.state points at. -/
def runFinalState (w : WorkflowDef) (runId : String) (initialInput : Value) :
    StateMap :=
  (runTop w runId initialInput).1.curContent

/-- The event trace of a top-level run. -/
def runTrace (w : WorkflowDef) (runId : String) (initialInput : Value) :
    List Event :=
  (runTop w runId initialInput).1.trace

/-- runStepExecution for one sequential operand: try-body, then
resumption and catch clause (the composition addStep awaits). -/
def runStepExecutionSeq (o : Operand) (input : Value) (rs : RunState) :
    RunState × Except String Value :=
  let (rs1, r) := execPhase o input rs
  settleStep o input r rs1

/-- Worker branch of src/lib.ts runWithConcurrencyLimit: results is a
fresh array of holes, each claimed index i gets results[i] =
await tasks[i](); order lists the claimed indices in the order their
awaits complete (the source's index++ counter hands every index in
range to exactly one worker, so any order covering the range can
occur). -/
def workerResults (tasks : List α) (order : List Nat) : List (Option α) :=
  order.foldl (fun acc i => acc.set i (tasks.get? i))
    (tasks.map (fun _ => none))

/-- src/lib.ts runWithConcurrencyLimit (lines 27-45), at the level of
settled results: when the limit is undefined, below one, or at least
the task count, Promise.all runs the mapped tasks; otherwise limit
workers claim indices and fill the results array in completion
order.  Tasks are modelled by their produced values. -/
def runWithConcurrencyLimit (tasks : List α) (limit : Option Nat)
    (order : List Nat) : List (Option α) :=
  match limit with
  | none => tasks.map some
  | some l =>
    if l < 1 then tasks.map some
    else if tasks.length ≤ l then tasks.map some
    else workerResults tasks order

/-- Number of executor invocations in a trace. -/
def countInvokes (t : List Event) : Nat :=
  (t.filter (fun e =>
    match e with
    | Event.invokeExec _ _ _ _ _ _ => true
    | _ => false)).length

/-- Helper for maxInFlight: running count and running maximum. -/
def maxInFlightAux : List Event → Nat → Nat → Nat
  | [], _, m => m
  | Event.invokeExec _ _ _ _ _ _ :: rest, c, m =>
      maxInFlightAux rest (c + 1) (max m (c + 1))
  | Event.resolveExec _ _ :: rest, c, m => maxInFlightAux rest (c - 1) m
  | Event.handlerCall _ _ _ _ :: rest, c, m => maxInFlightAux rest c m

/-- Largest number of executor invocations simultaneously pending
(invoked, not yet settled) along a trace. -/
def maxInFlight (t : List Event) : Nat :=
  maxInFlightAux t 0 0

/-- The onError handler calls of a trace: step id, original error
message, input, and the state content handed to the handler. -/
def handlerCalls (t : List Event) :
    List (String × String × Value × StateMap) :=
  t.filterMap (fun e =>
    match e with
    | Event.handlerCall sid m i st => some (sid, m, i, st)
    | _ => none)

/-- Modelled from the claim of C1 (spec 4.5 step 2), for comparison
with the engine: the executor is invoked up to 1 + MULE_STEP_RETRIES
total attempts, retrying on any raised error, and the error path runs
only after all attempts have failed.  attemptLoop counts the
invocations this policy performs when attempt k fails iff failsAt k. -/
def attemptLoop (failsAt : Nat → Bool) : Nat → Nat → Nat
  | 0, _ => 0
  | rem + 1, k =>
    if failsAt k then (if rem = 0 then 1 else 1 + attemptLoop failsAt rem (k + 1))
    else 1

/-- Modelled from the claim of C1: number of executor invocations the
claimed retry policy performs under the given environment. -/
def claimedAttemptsUsed (env : Env) (failsAt : Nat → Bool) : Nat :=
  attemptLoop failsAt (1 + getStepRetries env) 0

/-- Modelled from the claim of C2 (spec 4.1), for comparison with the
engine: inputSchema.parse is applied to the input immediately before
the executor and outputSchema.parse to the result immediately after,
both inside the executor's try scope. -/
def claimedValidatedBody (s : StepDef) (input : Value) (rs : RunState) :
    RunState × Except String Value :=
  match s.inputSchema.parse input with
  | .error m => (rs, .error m)
  | .ok inp2 =>
    let (rs1, r) := stepExecBody s inp2 rs
    (rs1,
      match r with
      | .error m => .error m
      | .ok out => s.outputSchema.parse out)

/-- Modelled from the claim of C2: the validated try-body combined with
the engine's own resumption and catch clause, so a validator rejection
is treated identically to an executor failure. -/
def claimedRunStepValidated (s : StepDef) (input : Value) (rs : RunState) :
    RunState × Except String Value :=
  let (rs1, r) := claimedValidatedBody s input rs
  settleStep (Operand.step s) input r rs1

/-! Concrete fixtures used by the claim theorems, mirroring the
scenarios of src/main_test.ts. -/

/-- Environment with both tunables unset. -/
def envDefault : Env := { muleStepRetries := none, muleStepConcurrency := none }

/-- Environment with MULE_STEP_CONCURRENCY set to 1. -/
def envCap1 : Env := { muleStepRetries := none, muleStepConcurrency := some "1" }

/-- A bare run-time state with runId test-workflow, for witnesses. -/
def rsW : RunState :=
  { heap := [[]]
    cur := 0
    lastOutput := Value.vnull
    runId := "test-workflow"
    projectId := "unknown"
    logger := none
    trace := [] }

/-- The failing step of the test suite: always throws
Error(Something went wrong), no onError. -/
def alwaysFailingStep : StepDef :=
  { id := "failingStep", inputSchema := .anyV, outputSchema := .anyV
    executor := { cmds := [], ret := .throwErr "Something went wrong" }
    onError := false }

/-- A workflow holding only alwaysFailingStep. -/
def wfAlwaysFailing : WorkflowDef :=
  .mk "wf-failing" [] [.seqStep (.step alwaysFailingStep)]

/-- A workflow declared (constructed) with state counter = 41 and no
operations. -/
def wfDeclared : WorkflowDef := .mk "wfd" [("counter", Value.num 41)] []

/-- A step that writes sharedCounter = 5 on the shared state object. -/
def outerMutStep : StepDef :=
  { id := "outerStep1", inputSchema := .anyV, outputSchema := .anyV
    executor :=
      { cmds := [ECmd.assign "sharedCounter" (Value.num 5)]
        ret := .const (Value.str "test") }
    onError := false }

/-- A step that returns state.sharedCounter. -/
def innerReadStep : StepDef :=
  { id := "innerStep", inputSchema := .anyV, outputSchema := .anyV
    executor := { cmds := [], ret := .stateGet "sharedCounter" }
    onError := false }

/-- A nested workflow whose only step reads the shared counter. -/
def nestedChildWf : WorkflowDef :=
  .mk "child-wf" [] [.seqStep (.step innerReadStep)]

/-- Parent workflow: mutate the state, then run the nested workflow. -/
def parentNestedWf : WorkflowDef :=
  .mk "parent" []
    [.seqStep (.step outerMutStep), .seqStep (.wf nestedChildWf)]

/-- A step that calls setState(a = 1) and then reads a from the state
object it captured at invocation. -/
def setStateStep : StepDef :=
  { id := "setStep", inputSchema := .anyV, outputSchema := .anyV
    executor :=
      { cmds := [ECmd.setPatch [("a", Value.num 1)]], ret := .stateGet "a" }
    onError := false }

/-- A workflow holding only setStateStep. -/
def wfSetState : WorkflowDef := .mk "wfs" [] [.seqStep (.step setStateStep)]

/-- A step returning 1. -/
def stepOne : StepDef :=
  { id := "s1", inputSchema := .anyV, outputSchema := .anyV
    executor := { cmds := [], ret := .const (Value.num 1) }
    onError := false }

/-- A step returning 2. -/
def stepTwo : StepDef :=
  { id := "s2", inputSchema := .anyV, outputSchema := .anyV
    executor := { cmds := [], ret := .const (Value.num 2) }
    onError := false }

/-- A parallel batch of stepOne and stepTwo. -/
def wfParallelPair : WorkflowDef :=
  .mk "wfp" [] [.parallelOp [.step stepOne, .step stepTwo]]

/-- A step whose executor returns the string x but whose outputSchema
rejects everything. -/
def badOutputStep : StepDef :=
  { id := "s", inputSchema := .anyV, outputSchema := .rejectAll "bad output"
    executor := { cmds := [], ret := .const (Value.str "x") }
    onError := false }

/-- A workflow holding only badOutputStep. -/
def wfBadOutput : WorkflowDef := .mk "wfv" [] [.seqStep (.step badOutputStep)]

/-- Run-time state with runId rv, for the validation comparison. -/
def rsBadV : RunState :=
  { heap := [[]]
    cur := 0
    lastOutput := Value.vnull
    runId := "rv"
    projectId := "unknown"
    logger := none
    trace := [] }

/-- Inner failing step of the nested-error scenario. -/
def innerFailingStep : StepDef :=
  { id := "innerFailingStep", inputSchema := .anyV, outputSchema := .anyV
    executor := { cmds := [], ret := .throwErr "Inner error" }
    onError := false }

/-- The nested workflow containing only the inner failing step. -/
def childFailWf : WorkflowDef :=
  .mk "child-wf" [] [.seqStep (.step innerFailingStep)]

/-- The outer workflow wrapping childFailWf as a step. -/
def outerNestedFailWf : WorkflowDef :=
  .mk "outer" [] [.seqStep (.wf childFailWf)]

/-- A failing step with an onError handler. -/
def handledFailStep : StepDef :=
  { id := "failingStep", inputSchema := .anyV, outputSchema := .anyV
    executor := { cmds := [], ret := .throwErr "Test error" }
    onError := true }

/-- A step returning the string success. -/
def successStep : StepDef :=
  { id := "successStep", inputSchema := .anyV, outputSchema := .anyV
    executor := { cmds := [], ret := .const (Value.str "success") }
    onError := false }

/-- Sequential workflow: handled failing step, then success step. -/
def wfHandledSeq : WorkflowDef :=
  .mk "wfh" [] [.seqStep (.step handledFailStep), .seqStep (.step successStep)]

/-- A failing parallel member with a handler. -/
def parFailHandled : StepDef :=
  { id := "pfail", inputSchema := .anyV, outputSchema := .anyV
    executor := { cmds := [], ret := .throwErr "boom" }
    onError := true }

/-- Parallel batch with one success and one handled failure. -/
def wfParHandled : WorkflowDef :=
  .mk "wfph" [] [.parallelOp [.step stepOne, .step parFailHandled]]

/-- Branch member for large inputs. -/
def branchStepL : StepDef :=
  { id := "branchStep1", inputSchema := .anyV, outputSchema := .anyV
    executor := { cmds := [], ret := .const (Value.str "L") }
    onError := false }

/-- Branch member for small inputs. -/
def branchStepS : StepDef :=
  { id := "branchStep2", inputSchema := .anyV, outputSchema := .anyV
    executor := { cmds := [], ret := .const (Value.str "S") }
    onError := false }

/-- Initial step producing the number 5. -/
def initialNumStep : StepDef :=
  { id := "initial", inputSchema := .anyV, outputSchema := .anyV
    executor := { cmds := [], ret := .const (Value.num 5) }
    onError := false }

/-- Branch scenario of the test suite where no predicate matches:
produce 5, then branch on (greater than 10) and (less than 3). -/
def wfBranchNone : WorkflowDef :=
  .mk "wfb" []
    [.seqStep (.step initialNumStep),
     .branchOp [(branchStepL, .numGt 10), (branchStepS, .numLt 3)]]

/-! Bookkeeping lemmas about the engine's run-time state. -/

/-- Executor effect commands never log events. -/
theorem runCmds_trace (a : Nat) (cmds : List ECmd) (rs : RunState) :
    (runCmds a cmds rs).trace = rs.trace := by
  induction cmds generalizing rs with
  | nil => rfl
  | cons c rest ih =>
    cases c with
    | setPatch patch => simpa [runCmds, setStateImpl] using ih _
    | assign k v => simpa [runCmds] using ih _

/-- Executor effect commands do not touch the instance's runId. -/
theorem runCmds_runId (a : Nat) (cmds : List ECmd) (rs : RunState) :
    (runCmds a cmds rs).runId = rs.runId := by
  induction cmds generalizing rs with
  | nil => rfl
  | cons c rest ih =>
    cases c with
    | setPatch patch => simpa [runCmds, setStateImpl] using ih _
    | assign k v => simpa [runCmds] using ih _

/-- The try-body appends exactly the invocation event to the trace. -/
theorem stepExecBody_trace (s : StepDef) (input : Value) (rs : RunState) :
    (stepExecBody s input rs).1.trace =
      rs.trace ++
        [Event.invokeExec rs.runId s.id rs.projectId rs.logger input rs.cur] := by
  simp [stepExecBody, runCmds_trace]

/-- The try-body preserves the instance's runId. -/
theorem stepExecBody_runId (s : StepDef) (input : Value) (rs : RunState) :
    (stepExecBody s input rs).1.runId = rs.runId := by
  simp [stepExecBody, runCmds_runId]

/-- Invocation counting distributes over trace concatenation. -/
theorem countInvokes_append (t1 t2 : List Event) :
    countInvokes (t1 ++ t2) = countInvokes t1 + countInvokes t2 := by
  simp [countInvokes, List.filter_append]

/-- Handler-call extraction distributes over trace concatenation. -/
theorem handlerCalls_append (t1 t2 : List Event) :
    handlerCalls (t1 ++ t2) = handlerCalls t1 ++ handlerCalls t2 := by
  simp [handlerCalls]

/-- C7: a step with id failingStep and no onError handler whose executor
always throws Error(Something went wrong), run with explicit runId
test-workflow, rejects with message exactly
Step 'test-workflow:failingStep' failed: Something went wrong; in
general an unhandled step failure raises an error whose message embeds
the hierarchical key runId:stepId followed by the original message. -/
theorem C7_step_failure_message (s : StepDef) (m : String) (input : Value)
    (rs : RunState) (hexec : s.executor.ret = RExpr.throwErr m)
    (hon : s.onError = false) :
    (runStepExecutionSeq (Operand.step s) input rs).2 =
      Except.error ("Step '" ++ rs.runId ++ ":" ++ s.id ++ "' failed: " ++ m) ∧
    runResult wfAlwaysFailing "test-workflow" Value.undef =
      Except.error "Step 'test-workflow:failingStep' failed: Something went wrong" := by
  constructor
  · simp [runStepExecutionSeq, execPhase, stepExecBody, settleStep, hexec,
      RExpr.eval, hon, runCmds_runId]
  · rfl

/-- Closed instance of C7's theorem at the concrete failing step. -/
theorem C7_witness :
    (runStepExecutionSeq (Operand.step alwaysFailingStep) Value.vnull rsW).2 =
      Except.error "Step 'test-workflow:failingStep' failed: Something went wrong" := by
  exact (C7_step_failure_message alwaysFailingStep "Something went wrong"
    Value.vnull rsW rfl rfl).1

/-- C8: a failure inside a nested workflow's run is re-raised to the
parent unconditionally (never absorbed at the wrapping level), and the
concrete nested-failure scenario rejects the outer run with a message
containing the outer runId and the inner failing step id joined by the
arrow path. -/
theorem C8_nested_failure_reraised (child : WorkflowDef) (input : Value)
    (rs : RunState) (e : String)
    (h : (runWorkflow child (rs.runId ++ "->" ++ child.workflowId)
            input none rs).2 = Except.error e) :
    (runStepExecutionSeq (Operand.wf child) input rs).2 = Except.error e ∧
    runResult outerNestedFailWf "parent-workflow" Value.undef =
      Except.error
        "Step 'parent-workflow->child-wf:innerFailingStep' failed: Inner error" ∧
    ("parent-workflow->").toList <:+:
      ("Step 'parent-workflow->child-wf:innerFailingStep' failed: Inner error").toList ∧
    ("innerFailingStep").toList <:+:
      ("Step 'parent-workflow->child-wf:innerFailingStep' failed: Inner error").toList := by
  refine ⟨?_, rfl, ?_, ?_⟩
  · unfold runStepExecutionSeq execPhase
    rcases hw : runWorkflow child (rs.runId ++ "->" ++ child.workflowId)
      input none rs with ⟨rs1, r⟩
    rw [hw] at h
    simp only at h
    subst h
    simp [settleStep]
  · exact ⟨("Step '").toList,
      ("child-wf:innerFailingStep' failed: Inner error").toList, rfl⟩
  · exact ⟨("Step 'parent-workflow->child-wf:").toList,
      ("' failed: Inner error").toList, rfl⟩

/-- Closed instance of C8's theorem at the concrete nested workflow. -/
theorem C8_witness :
    (runStepExecutionSeq (Operand.wf childFailWf) (Value.str "test") rsW).2 =
      Except.error
        "Step 'test-workflow->child-wf:innerFailingStep' failed: Inner error" := by
  exact (C8_nested_failure_reraised childFailWf (Value.str "test") rsW
    "Step 'test-workflow->child-wf:innerFailingStep' failed: Inner error" rfl).1

/-- C9: a step whose executor fails but which has an onError handler
does not reject the run: the handler receives the original error, the
input and the shared state at the time of failure, the step's
contribution becomes undefined, and execution of the remaining
operations continues (sequentially and in parallel result maps). -/
theorem C9_onError_absorption (s : StepDef) (input : Value) (rs : RunState)
    (m : String) (hon : s.onError = true)
    (hfail : (stepExecBody s input rs).2 = Except.error m) :
    (runStepExecutionSeq (Operand.step s) input rs).2 = Except.ok Value.undef ∧
    handlerCalls (runStepExecutionSeq (Operand.step s) input rs).1.trace =
      handlerCalls rs.trace ++
        [(s.id, m, input, (stepExecBody s input rs).1.curContent)] ∧
    runResult wfHandledSeq "r" Value.undef = Except.ok (Value.str "success") ∧
    runResult wfParHandled "r" Value.undef =
      Except.ok (Value.obj [("s1", Value.num 1), ("pfail", Value.undef)]) := by
  have ht := stepExecBody_trace s input rs
  refine ⟨?_, ?_, rfl, rfl⟩
  · unfold runStepExecutionSeq execPhase
    rcases hb : stepExecBody s input rs with ⟨rs1, r⟩
    rw [hb] at hfail
    simp only at hfail
    subst hfail
    simp [settleStep, hon]
  · unfold runStepExecutionSeq execPhase
    rcases hb : stepExecBody s input rs with ⟨rs1, r⟩
    rw [hb] at hfail ht
    simp only at hfail ht
    subst hfail
    simp [settleStep, hon, ht, handlerCalls_append, handlerCalls,
      RunState.curContent]

/-- Closed instance of C9's theorem at the concrete handled step. -/
theorem C9_witness :
    (runStepExecutionSeq (Operand.step handledFailStep) Value.vnull rsW).2 =
      Except.ok Value.undef ∧
    handlerCalls (runStepExecutionSeq (Operand.step handledFailStep)
        Value.vnull rsW).1.trace =
      [("failingStep", "Test error", Value.vnull, [])] := by
  have h := C9_onError_absorption handledFailStep Value.vnull rsW
    "Test error" rfl rfl
  exact ⟨h.1, h.2.1⟩

/-- C10: in a branch operation all predicates are evaluated against the
current lastOutput before any execution; when none matches, lastOutput
becomes an empty object, no executor is invoked, and the run continues
normally (no rejection). -/
theorem C10_branch_no_match (cs : List (StepDef × Pred)) (rs : RunState)
    (h : ∀ c ∈ cs, c.2.eval rs.lastOutput = false) :
    runOp (OpDef.branchOp cs) rs =
      ({ rs with lastOutput := Value.obj [] }, none) ∧
    runResult wfBranchNone "r" Value.undef = Except.ok (Value.obj []) ∧
    countInvokes (runTrace wfBranchNone "r" Value.undef) = 1 := by
  refine ⟨?_, rfl, rfl⟩
  have hfilter : cs.filter (fun c => c.2.eval rs.lastOutput) = [] := by
    apply List.filter_eq_nil_iff.mpr
    intro c hc
    simp [h c hc]
  simp [runOp, hfilter]

/-- Closed instance of C10's theorem at the concrete no-match branch. -/
theorem C10_witness :
    runOp (OpDef.branchOp [(branchStepL, Pred.numGt 10), (branchStepS, Pred.numLt 3)])
      { rsW with lastOutput := Value.num 5 } =
      ({ rsW with lastOutput := Value.obj [] }, none) := by
  have h := C10_branch_no_match
    [(branchStepL, Pred.numGt 10), (branchStepS, Pred.numLt 3)]
    { rsW with lastOutput := Value.num 5 } ?_
  · exact h.1
  · intro c hc
    rcases List.mem_cons.mp hc with hc1 | hc2
    · subst hc1; rfl
    rcases List.mem_cons.mp hc2 with hc3 | hc4
    · subst hc3; rfl
    · cases hc4

/-- C1 counterexample: for the always-failing step run under the
default environment, the engine performs exactly one executor
invocation and runs the error path immediately, while the claimed
policy (1 + MULE_STEP_RETRIES total attempts, retrying on any raised
error before the error path) performs two invocations. -/
theorem C1_counterexample :
    countInvokes (runTrace wfAlwaysFailing "test-workflow" Value.undef) = 1 ∧
    runResult wfAlwaysFailing "test-workflow" Value.undef =
      Except.error "Step 'test-workflow:failingStep' failed: Something went wrong" ∧
    claimedAttemptsUsed envDefault (fun _ => true) = 2 ∧
    (1 : Nat) ≠ 2 := by
  exact ⟨rfl, rfl, rfl, by decide⟩

/-- C1 amended: getStepRetries reads MULE_STEP_RETRIES as a
non-negative integer defaulting to 1 with invalid or negative values
falling back to the default, but the engine never consults it: every
step execution invokes the executor exactly once, and the error path
runs immediately after that single failed attempt. -/
theorem C1_engine_invokes_once (env : Env) (s : StepDef) (input : Value)
    (rs : RunState) :
    countInvokes (runStepExecutionSeq (Operand.step s) input rs).1.trace =
      countInvokes rs.trace + 1 ∧
    (env.muleStepRetries = none → getStepRetries env = 1) ∧
    (∀ raw, env.muleStepRetries = some raw → raw ≠ "" →
      jsParseInt raw = none → getStepRetries env = 1) ∧
    (∀ raw n, env.muleStepRetries = some raw → raw ≠ "" →
      jsParseInt raw = some n → n < 0 → getStepRetries env = 1) ∧
    (∀ raw n, env.muleStepRetries = some raw → raw ≠ "" →
      jsParseInt raw = some n → 0 ≤ n → getStepRetries env = n.toNat) := by
  refine ⟨?_, ?_, ?_, ?_, ?_⟩
  · unfold runStepExecutionSeq execPhase
    rcases hb : stepExecBody s input rs with ⟨rs1, r⟩
    have ht := stepExecBody_trace s input rs
    rw [hb] at ht
    simp only at ht
    cases r with
    | ok v =>
      simp [settleStep, ht, countInvokes_append, countInvokes]
    | error m =>
      cases honb : s.onError <;>
        simp [settleStep, honb, ht, countInvokes_append, countInvokes]
  · intro h
    simp [getStepRetries, h, DEFAULT_STEP_RETRIES]
  · intro raw h hne hp
    simp [getStepRetries, h, hne, hp, DEFAULT_STEP_RETRIES]
  · intro raw n h hne hp hneg
    simp only [getStepRetries, h, hne, hp, if_neg hne]
    rw [if_pos hneg]
    simp [DEFAULT_STEP_RETRIES]
  · intro raw n h hne hp hpos
    simp only [getStepRetries, h, hne, hp, if_neg hne]
    rw [if_neg (not_lt.mpr hpos)]
    simp

/-- Closed instance of C1's amended theorem. -/
theorem C1_witness :
    countInvokes (runStepExecutionSeq (Operand.step alwaysFailingStep)
        Value.vnull rsW).1.trace = 1 ∧
    getStepRetries { muleStepRetries := some "abc", muleStepConcurrency := none } = 1 ∧
    getStepRetries { muleStepRetries := some "-2", muleStepConcurrency := none } = 1 ∧
    getStepRetries { muleStepRetries := some "4", muleStepConcurrency := none } = 4 := by
  have h1 := C1_engine_invokes_once envDefault alwaysFailingStep Value.vnull rsW
  have h2 := C1_engine_invokes_once
    { muleStepRetries := some "abc", muleStepConcurrency := none }
    alwaysFailingStep Value.vnull rsW
  have h3 := C1_engine_invokes_once
    { muleStepRetries := some "-2", muleStepConcurrency := none }
    alwaysFailingStep Value.vnull rsW
  have h4 := C1_engine_invokes_once
    { muleStepRetries := some "4", muleStepConcurrency := none }
    alwaysFailingStep Value.vnull rsW
  refine ⟨?_, ?_, ?_, ?_⟩
  · simpa using h1.1
  · exact h2.2.2.1 "abc" rfl (by decide) rfl
  · exact h3.2.2.2.1 "-2" (-2) rfl (by decide) rfl (by decide)
  · exact h4.2.2.2.2 "4" 4 rfl (by decide) rfl (by decide)

/-- C2 counterexample: the step whose outputSchema rejects everything
runs to success with its raw executor output under the engine, while
the claimed validated execution (parse before and after the executor,
inside the try scope) rejects with a step-failure error. -/
theorem C2_counterexample :
    runResult wfBadOutput "rv" Value.undef = Except.ok (Value.str "x") ∧
    (claimedRunStepValidated badOutputStep Value.vnull rsBadV).2 =
      Except.error "Step 'rv:s' failed: bad output" ∧
    (Except.ok (Value.str "x") : Except String Value) ≠
      Except.error "Step 'rv:s' failed: bad output" := by
  exact ⟨rfl, rfl, fun h => Except.noConfusion h⟩

/-- C2 amended: the engine applies neither inputSchema.parse nor
outputSchema.parse: step execution is entirely independent of both
validators, the executor receives the raw input and its raw result is
the step's output. -/
theorem C2_validators_ignored (s : StepDef) (v1 v2 : Validator)
    (input : Value) (rs : RunState) :
    stepExecBody { s with inputSchema := v1, outputSchema := v2 } input rs =
      stepExecBody s input rs ∧
    runStepExecutionSeq
        (Operand.step { s with inputSchema := v1, outputSchema := v2 })
        input rs =
      runStepExecutionSeq (Operand.step s) input rs := by
  exact ⟨rfl, rfl⟩

/-- C3 counterexample: a workflow declared (constructed) with state
counter = 41 runs with a state reset to the empty object, not to its
declared default. -/
theorem C3_counterexample :
    wfDeclared.declaredState = [("counter", Value.num 41)] ∧
    runFinalState wfDeclared "r1" Value.undef = [] ∧
    ([] : StateMap) ≠ [("counter", Value.num 41)] := by
  refine ⟨rfl, rfl, by simp⟩

/-- C3 amended: at the very start of every run() the state is reset to
a freshly allocated empty default merged with any caller-supplied
initial state — independent of the instance's previous state, so no
mutations are retained across runs — but the construction-time
declared state is not restored. -/
theorem C3_run_resets_to_empty_default (w : WorkflowDef) (rid : String)
    (inp : Value) (iS : Option StateMap) (rs rs2 : RunState) :
    (runStart rs rid inp iS).curContent = shallowMerge [] (iS.getD []) ∧
    (runStart rs rid inp iS).curContent =
      (runStart rs2 rid inp iS).curContent ∧
    runWorkflow w rid inp iS rs =
      (match runOps w.ops (runStart rs rid inp iS) with
       | (rs3, none) => (rs3, Except.ok rs3.lastOutput)
       | (rs3, some e) => (rs3, Except.error e)) := by
  have hstart : ∀ rsa : RunState,
      (runStart rsa rid inp iS).curContent = shallowMerge [] (iS.getD []) := by
    intro rsa
    show (rsa.heap ++ [_]).getD rsa.heap.length [] = _
    rw [List.getD_append_right _ _ _ _ (le_refl _)]
    simp only [Nat.sub_self]
    cases iS <;> rfl
  refine ⟨hstart rs, (hstart rs).trans (hstart rs2).symm, ?_⟩
  cases w
  rfl

/-- C4 (evaluation of the code at the failing input): the parent step
writes sharedCounter = 5 on the shared state, yet the nested child's
executor reads undefined for that key (the child's run resets its
state field to a fresh empty object despite the preceding aliasing),
and after the sync-back the parent's final state has lost the parent's
own mutation as well. -/
theorem C4_failing_input_eval :
    runResult parentNestedWf "p" Value.undef = Except.ok Value.undef ∧
    runFinalState parentNestedWf "p" Value.undef = [] := by
  exact ⟨rfl, rfl⟩

/-- C5 counterexample: in the concrete run the state object is at
address 1 when the operations start but at address 2 when the run
ends, so this.state was replaced mid-run by the setState call; the
executor that performed setState(a = 1) and then read field a of the
state object it captured got undefined (the captured object no longer
observes the update), even though the final state holds a = 1. -/
theorem C5_counterexample :
    (runStart (newWorkflowState wfSetState) "r" Value.undef none).cur = 1 ∧
    (runTop wfSetState "r" Value.undef).1.cur = 2 ∧
    (2 : Nat) ≠ 1 ∧
    runResult wfSetState "r" Value.undef = Except.ok Value.undef ∧
    runFinalState wfSetState "r" Value.undef = [("a", Value.num 1)] := by
  exact ⟨rfl, rfl, by decide, rfl, rfl⟩

/-- C5 amended: the engine's setState allocates a fresh object holding
the shallow merge of the current state and the patch and repoints
this.state at it: the state reference changes on every setState call,
and the previously current object is left unchanged (so a holder of
the old reference stops observing updates). -/
theorem C5_setState_allocates (rs : RunState) (patch : StateMap)
    (h : rs.cur < rs.heap.length) :
    (setStateImpl rs patch).cur = rs.heap.length ∧
    (setStateImpl rs patch).cur ≠ rs.cur ∧
    (setStateImpl rs patch).heap.getD rs.cur [] = rs.heap.getD rs.cur [] ∧
    (setStateImpl rs patch).curContent = shallowMerge rs.curContent patch := by
  refine ⟨rfl, Nat.ne_of_gt h, ?_, ?_⟩
  · show (rs.heap ++ [_]).getD rs.cur [] = _
    rw [List.getD_append _ _ _ _ h]
  · show (rs.heap ++ [_]).getD rs.heap.length [] = _
    rw [List.getD_append_right _ _ _ _ (le_refl _)]
    simp [Nat.sub_self]

/-- Closed instance of C5's amended theorem. -/
theorem C5_witness :
    (setStateImpl rsW [("a", Value.num 1)]).cur ≠ rsW.cur ∧
    (setStateImpl rsW [("a", Value.num 1)]).curContent =
      [("a", Value.num 1)] := by
  have h := C5_setState_allocates rsW [("a", Value.num 1)] (by decide)
  exact ⟨h.2.1, h.2.2.2⟩

/-- C6 counterexample: with MULE_STEP_CONCURRENCY = 1 (parsed cap 1)
the engine's parallel batch of two steps still has both executor
invocations pending at once. -/
theorem C6_counterexample :
    getMaxParallelSteps envCap1 = some 1 ∧
    maxInFlight (runTrace wfParallelPair "r" Value.undef) = 2 ∧
    ¬(2 ≤ 1) := by
  exact ⟨rfl, rfl, by decide⟩

/-- Writes of the worker fold never touch an unclaimed position. -/
theorem workerFold_get_not_mem {α : Type} (tasks : List α)
    (order : List Nat) (acc : List (Option α)) (i : Nat) (h : i ∉ order) :
    (order.foldl (fun a j => a.set j (tasks.get? j)) acc).get? i =
      acc.get? i := by
  induction order generalizing acc with
  | nil => rfl
  | cons j rest ih =>
    simp only [List.foldl_cons]
    rw [ih _ (fun hm => h (List.mem_cons_of_mem j hm))]
    exact List.get?_set_ne _ _
      (fun e => h (e ▸ List.mem_cons_self j rest))

/-- Every claimed position holds its own task's value after the worker
fold. -/
theorem workerFold_get_mem {α : Type} (tasks : List α) (order : List Nat)
    (acc : List (Option α)) (i : Nat) (hmem : i ∈ order)
    (hlen : acc.length = tasks.length) (hi : i < tasks.length) :
    (order.foldl (fun a j => a.set j (tasks.get? j)) acc).get? i =
      some (tasks.get? i) := by
  induction order generalizing acc with
  | nil => cases hmem
  | cons j rest ih =>
    simp only [List.foldl_cons]
    by_cases hr : i ∈ rest
    · exact ih _ hr (by simp [hlen])
    · have hij : i = j := by
        rcases List.mem_cons.mp hmem with h | h
        · exact h
        · exact absurd h hr
      subst hij
      rw [workerFold_get_not_mem tasks rest _ i hr]
      exact List.get?_set_eq_of_lt _ (by rw [hlen]; exact hi)

/-- Promise.all at result level: position i holds task i's value. -/
theorem map_some_get {α : Type} (tasks : List α) (i : Nat)
    (hi : i < tasks.length) :
    (tasks.map some).get? i = some (tasks.get? i) := by
  rw [List.get?_map, List.get?_eq_get hi]
  rfl

/-- C6 amended: the engine's parallel batch starts all members at once
through Promise.all (no concurrency cap is applied and
MULE_STEP_CONCURRENCY is not consulted), with the result map pairing
member i's key with member i's result; the bounded-concurrency runner
runWithConcurrencyLimit, which the engine never invokes, maps index i
to the result of task i for every task list, every limit, and every
completion order covering the index range. -/
theorem C6_runner_and_parallel {α : Type} (tasks : List α)
    (limit : Option Nat) (order : List Nat) (i : Nat)
    (hcov : ∀ j, j < tasks.length → j ∈ order) (hi : i < tasks.length) :
    (runWithConcurrencyLimit tasks limit order).get? i =
      some (tasks.get? i) ∧
    runResult wfParallelPair "r" Value.undef =
      Except.ok (Value.obj [("s1", Value.num 1), ("s2", Value.num 2)]) ∧
    maxInFlight (runTrace wfParallelPair "r" Value.undef) = 2 := by
  refine ⟨?_, rfl, rfl⟩
  unfold runWithConcurrencyLimit
  cases limit with
  | none => exact map_some_get tasks i hi
  | some l =>
    by_cases h1 : l < 1
    · simp only [if_pos h1]
      exact map_some_get tasks i hi
    · by_cases h2 : tasks.length ≤ l
      · simp only [if_neg h1, if_pos h2]
        exact map_some_get tasks i hi
      · simp only [if_neg h1, if_neg h2]
        unfold workerResults
        exact workerFold_get_mem tasks order _ i (hcov i hi)
          (by simp) hi

/-- Closed instance of C6's amended theorem. -/
theorem C6_witness :
    (runWithConcurrencyLimit
      [Value.num 10, Value.num 20, Value.num 30] (some 2) [1, 0, 2]).get? 0 =
      some (some (Value.num 10)) := by
  have h := C6_runner_and_parallel
    [Value.num 10, Value.num 20, Value.num 30] (some 2) [1, 0, 2] 0
    ?_ (by decide)
  · simpa using h.1
  · intro j hj
    simp only [List.length_cons, List.length_nil] at hj
    interval_cases j <;> decide

end Mule
